import Mathlib

/-!
Shallow embedding of `Scripts/validate_versioning.py` (DragonHealth):
a one-shot CI gate that validates a repository's `Docs/version.json`
record and compares it against the record at a baseline git reference.

External collaborators (file system, `git` subprocesses, environment
variables, the event payload) are modelled as inputs carried by an
`Env` record: each field holds the outcome the corresponding call
would return.  All decision logic (the regex, the payload validator,
the comparison rules, the rule ordering) is translated directly from
the source.
-/

namespace ValidateVersioning

/-! ### Characters and Python string helpers -/

/-- ASCII decimal digit (codepoints 48–57), the `\d` class of the
pattern and the digits accepted by `int()`.  (Python also accepts
non-ASCII Unicode decimal digits in both places; those are outside
this embedding.) -/
def isDig (c : Char) : Bool := decide (48 ≤ c.toNat ∧ c.toNat ≤ 57)

/-- The `[1-9]` class of `SEMVER_RE` (codepoints 49–57). -/
def isNZDig (c : Char) : Bool := decide (49 ≤ c.toNat ∧ c.toNat ≤ 57)

/-- ASCII whitespace as stripped by `str.strip()` and tolerated around
`int()` literals: space, tab, newline, carriage return, vertical tab,
form feed (Unicode whitespace beyond ASCII is not modelled). -/
def isPySpace (c : Char) : Bool :=
  decide (c.toNat = 32 ∨ c.toNat = 9 ∨ c.toNat = 10 ∨
    c.toNat = 13 ∨ c.toNat = 11 ∨ c.toNat = 12)

/-- Python `str.strip()`: drop leading and trailing whitespace. -/
def stripWS (s : List Char) : List Char :=
  ((s.dropWhile isPySpace).reverse.dropWhile isPySpace).reverse

/-- Python `str.split(sep)` for a one-character separator: split at every
occurrence; `"".split(sep)` is `[""]`. -/
def pySplit (sep : Char) : List Char → List (List Char)
  | [] => [[]]
  | c :: rest =>
    if c == sep then [] :: pySplit sep rest
    else
      match pySplit sep rest with
      | [] => [[c]]
      | p :: ps => (c :: p) :: ps

def digitVal (c : Char) : Nat := c.toNat - '0'.toNat

/-- Numeric value of a run of decimal digits. -/
def digitsVal (l : List Char) : Nat :=
  l.foldl (fun a c => a * 10 + digitVal c) 0

/-- Tail of a Python integer literal after its first digit: further
digits, with single underscores allowed between digits. -/
def digitsRest (acc : Nat) : List Char → Option Nat
  | [] => some acc
  | c :: rest =>
    if isDig c then digitsRest (acc * 10 + digitVal c) rest
    else if c == '_' then
      match rest with
      | [] => none
      | c2 :: rest2 =>
        if isDig c2 then digitsRest (acc * 10 + digitVal c2) rest2 else none
    else none

/-- Digit part of a Python integer literal: a digit, then `digitsRest`. -/
def parseDigits : List Char → Option Nat
  | [] => none
  | c :: rest => if isDig c then digitsRest (digitVal c) rest else none

/-- Python `int(s)` on a string: surrounding whitespace stripped, one
optional sign, then a digit run (underscores allowed between digits).
`none` models the `ValueError`. -/
def pyInt (s : List Char) : Option Int :=
  match stripWS s with
  | [] => none
  | c :: rest =>
    if c == '+' then (parseDigits rest).map (fun n => (n : Int))
    else if c == '-' then (parseDigits rest).map (fun n => -(n : Int))
    else (parseDigits (c :: rest)).map (fun n => (n : Int))

/-! ### The `SEMVER_RE` pattern `^(0|[1-9]\d*)\.(0|[1-9]\d*)\.(0|[1-9]\d*)$` -/

/-- One `(0|[1-9]\d*)` group, matched from the front of the input:
returns the matched characters and the remaining input.  The `0`
alternative is tried first; the greedy `\d*` never has to backtrack
because no later element of the pattern can match a digit. -/
def parseGroup : List Char → Option (List Char × List Char)
  | [] => none
  | c :: rest =>
    if c == '0' then some ([c], rest)
    else if isNZDig c then
      some (c :: rest.takeWhile isDig, rest.dropWhile isDig)
    else none

/-- Consume the literal `\.` of the pattern. -/
def expectDot : List Char → Option (List Char)
  | [] => none
  | c :: rest => if c == '.' then some rest else none

/-- The three dot-separated groups of the pattern, matched from the
front: returns the groups and the remaining input. -/
def parseSemverRest (s : List Char) :
    Option ((List Char × List Char × List Char) × List Char) :=
  (parseGroup s).bind fun p1 =>
    (expectDot p1.2).bind fun s2 =>
      (parseGroup s2).bind fun p2 =>
        (expectDot p2.2).bind fun s4 =>
          (parseGroup s4).bind fun p3 =>
            some ((p1.1, p2.1, p3.1), p3.2)

/-- What the `$` anchor of a non-MULTILINE Python pattern accepts as a
remainder: the end of the string, or a single trailing newline. -/
def tailOk : List Char → Bool
  | [] => true
  | c :: rest => c == '\n' && rest.isEmpty

/-- Truthiness of `SEMVER_RE.match(s)`. -/
def semverMatch (s : List Char) : Bool :=
  match parseSemverRest s with
  | some (_, r) => tailOk r
  | none => false

/-- A version component as the spec words it: the literal `0`, or a
nonzero digit followed by digits (no leading zero). -/
def isGroup : List Char → Bool
  | [] => false
  | c :: rest => (c == '0' && rest.isEmpty) || (isNZDig c && rest.all isDig)

/-- The spec sentence's reading of the pattern: the whole string is
exactly `MAJOR.MINOR.PATCH`, nothing else (no trailing characters at
all).  Kept separate from the code-derived `semverMatch` so the two
can be compared. -/
def specSemver (s : List Char) : Prop :=
  ∃ a b c, isGroup a = true ∧ isGroup b = true ∧ isGroup c = true ∧
    s = a ++ '.' :: (b ++ '.' :: c)

/-- Input does not start with a digit (so a greedy `\d*` to its left
consumes nothing of it). -/
def noDigitStart : List Char → Bool
  | [] => true
  | c :: _ => !isDig c

/-! ### Python-side JSON values -/

/-- A parsed JSON value as Python's `json` module produces it.  JSON
numbers with a fraction or exponent part become `float`; their value
is irrelevant to the validator (any `float` fails the `int` check), so
`jfloat` carries no payload. -/
inductive JValue where
  | jnull : JValue
  | jbool : Bool → JValue
  | jint : Int → JValue
  | jfloat : JValue
  | jstr : String → JValue
  | jarr : List JValue → JValue
  | jobj : List (String × JValue) → JValue

/-- Dictionary lookup on the parsed object's fields (keys are unique
after `json.load`). -/
def lookup (k : String) : List (String × JValue) → Option JValue
  | [] => none
  | (k2, v) :: rest => if k2 == k then some v else lookup k rest

/-- Python `isinstance(x, int)` together with the integer value used in
comparisons: `bool` is a subclass of `int`, so `True` counts as `1`
and `False` as `0`.  `none` means the `isinstance` check fails. -/
def pyIntVal : JValue → Option Int
  | .jint n => some n
  | .jbool b => some (if b then 1 else 0)
  | _ => none

/-- How an f-string renders the value (only values that survive
validation are ever rendered; the remaining arms are unreachable on
those paths and their rendering is a placeholder). -/
def pyStr : JValue → String
  | .jint n => toString n
  | .jbool b => if b then "True" else "False"
  | .jstr s => s
  | _ => "<unrenderable>"

/-! ### `validate_payload`, `semver_tuple`, tuple order -/

def VERSION_PATH : String := "Docs/version.json"

/-- `validate_payload(data, source)`: `.error m` models `fail(m)`
(print `ERROR: m`, exit 1); check order follows the source. -/
def validate_payload (data : List (String × JValue)) (source : String) :
    Except String Unit :=
  match lookup "marketing_version" data with
  | none => .error (source ++ " missing marketing_version")
  | some mv =>
    match lookup "build_number" data with
    | none => .error (source ++ " missing build_number")
    | some bn =>
      match mv with
      | .jstr v =>
        if semverMatch v.data then
          match pyIntVal bn with
          | none => .error (source ++ " build_number must be an integer")
          | some n =>
            if n < 0 then .error (source ++ " build_number must be >= 0")
            else .ok ()
        else .error (source ++ " marketing_version must be SemVer (x.y.z)")
      | _ => .error (source ++ " marketing_version must be a string")

/-- `semver_tuple(version)`: `version.split(".")` destructured into
exactly three names (`ValueError` otherwise, modelled as `none`), each
piece converted with `int` (`ValueError` likewise `none`). -/
def semver_tuple (version : String) : Option (Int × Int × Int) :=
  match pySplit '.' version.data with
  | [a, b, c] =>
    match pyInt a, pyInt b, pyInt c with
    | some x, some y, some z => some (x, y, z)
    | _, _, _ => none
  | _ => none

/-- The numeric components captured by the pattern's three groups. -/
def semverComponents (s : List Char) : Option (Int × Int × Int) :=
  match parseSemverRest s with
  | some ((a, b, c), _) =>
    some ((digitsVal a : Int), (digitsVal b : Int), (digitsVal c : Int))
  | none => none

/-- Python `<` on `(int, int, int)` tuples: lexicographic. -/
def tupLt (x y : Int × Int × Int) : Bool :=
  decide (x.1 < y.1 ∨ (x.1 = y.1 ∧
    (x.2.1 < y.2.1 ∨ (x.2.1 = y.2.1 ∧ x.2.2 < y.2.2))))

/-- Python `<=` on `(int, int, int)` tuples. -/
def tupLe (x y : Int × Int × Int) : Bool := tupLt x y || decide (x = y)

/-! ### Collaborator-facing helpers -/

/-- `file_changed(base_ref, path)`: `diffResult` is the outcome of the
`git diff --name-only` call — `none` models `CalledProcessError`
(swallowed), `some out` the captured stdout.  The result is
`bool(output.strip())`. -/
def file_changed (diffResult : Option String) : Bool :=
  match diffResult with
  | none => false
  | some out => !(stripWS out.data).isEmpty

/-- The fixed fallback candidates probed by `resolve_base_ref`. -/
def candidates : List String := ["origin/main", "origin/master", "main", "master"]

/-- First candidate for which `git rev-parse --verify` succeeds
(`verify` supplies each call's outcome). -/
def firstVerified (verify : String → Bool) : List String → Option String
  | [] => none
  | c :: rest => if verify c then some c else firstVerified verify rest

/-- `resolve_base_ref()`: a truthy (non-empty) `GITHUB_BASE_REF` is
returned remote-qualified without any verification; otherwise the
fixed candidates are probed in order. -/
def resolve_base_ref (githubBaseRef : Option String) (verify : String → Bool) :
    Option String :=
  match githubBaseRef with
  | some b => if b == "" then firstVerified verify candidates
              else some ("origin/" ++ b)
  | none => firstVerified verify candidates

/-! ### `main` -/

/-- Everything `main` observes about the outside world: each field is
the outcome the corresponding collaborator call would return. -/
structure Env where
  /-- `read_json(VERSION_PATH)`: the parsed object's fields, or the
  diagnostic `fail` would print (missing file / invalid JSON). -/
  currentRead : Except String (List (String × JValue))
  /-- `os.environ.get("GITHUB_BASE_REF")`. -/
  githubBaseRef : Option String
  /-- success of `git rev-parse --verify` per candidate ref. -/
  verify : String → Bool
  /-- stdout of the `git diff` query, `none` on command failure. -/
  diffResult : Option String
  /-- labels extracted by `parse_labels_from_event()`. -/
  labels : List String
  /-- baseline record: `none` if `git_show` failed (file absent at the
  baseline); `some (.error e)` if `json.loads` raised with message
  `e`; `some (.ok fields)` the parsed object's fields. -/
  base : Option (Except String (List (String × JValue)))

/-- The observable result of a run: which line is printed and whether
the process exits 0 (the `pass` constructors) or 1 (the `fail`
constructors); `crash` models an uncaught Python exception (traceback,
nonzero exit), reachable only outside the validated paths. -/
inductive Outcome where
  | passNoBase : Outcome
  | passInitial : String → Outcome
  | passOk : Outcome
  | failMsg : String → Outcome
  | failReleaseNoChange : Outcome
  | failBuild : String → String → Outcome
  | failRegression : String → String → Outcome
  | failRelease : String → String → Outcome
  | crash : Outcome
  deriving DecidableEq

/-- The exact line the source prints for each outcome. -/
def render : Outcome → String
  | .passNoBase => "No base ref detected; validated current version only."
  | .passInitial ref =>
      VERSION_PATH ++ " not found on " ++ ref ++ "; treating as initial version."
  | .passOk => "Versioning validation passed."
  | .failMsg m => "ERROR: " ++ m
  | .failReleaseNoChange =>
      "ERROR: " ++ VERSION_PATH ++ " must be updated when release label is applied"
  | .failBuild c b =>
      "ERROR: build_number must increase (current " ++ c ++ ", base " ++ b ++ ")"
  | .failRegression c b =>
      "ERROR: marketing_version must not decrease (current " ++ c ++ ", base " ++ b ++ ")"
  | .failRelease c b =>
      "ERROR: marketing_version must increase for release label (current " ++
        c ++ ", base " ++ b ++ ")"
  | .crash => "<uncaught exception>"

/-- Does the outcome correspond to a `fail(...)` call (exit 1 with an
`ERROR:` diagnostic)? -/
def isFail : Outcome → Bool
  | .failMsg _ | .failReleaseNoChange | .failBuild _ _
  | .failRegression _ _ | .failRelease _ _ => true
  | _ => false

/-- The comparison phase of `main` — the body of its `if changed:`
block (source lines 133–153): build-number monotonicity first, then
the two marketing-version rules, in source order.  The `crash` arms
model the `KeyError` / `ValueError` a malformed record would raise
there; they are unreachable once both records validated. -/
def compareRules (release_requested : Bool)
    (current base : List (String × JValue)) : Outcome :=
  match lookup "build_number" current, lookup "build_number" base with
  | some cbv, some bbv =>
    match pyIntVal cbv, pyIntVal bbv with
    | some cb, some bb =>
      if cb ≤ bb then .failBuild (pyStr cbv) (pyStr bbv)
      else
        match lookup "marketing_version" current,
              lookup "marketing_version" base with
        | some (.jstr cs), some (.jstr bs) =>
          match semver_tuple cs, semver_tuple bs with
          | some cv, some bv =>
            if tupLt cv bv then .failRegression cs bs
            else if release_requested && tupLe cv bv then .failRelease cs bs
            else .passOk
          | _, _ => .crash
        | _, _ => .crash
    | _, _ => .crash
  | _, _ => .crash

/-- `main()`, step for step: read and validate the current record,
resolve the baseline, detect change and release intent, apply the
release-without-bump rule, read and validate the baseline record, and
(only when the file changed) apply the build-monotonicity, no-regression
and release-requires-bump rules in that order. -/
def main (env : Env) : Outcome :=
  match env.currentRead with
  | .error e => .failMsg e
  | .ok current =>
    match validate_payload current VERSION_PATH with
    | .error e => .failMsg e
    | .ok () =>
      match resolve_base_ref env.githubBaseRef env.verify with
      | none => .passNoBase
      | some base_ref =>
        let changed := file_changed env.diffResult
        let release_requested := env.labels.contains "release"
        if release_requested && !changed then .failReleaseNoChange
        else
          match env.base with
          | none => .passInitial base_ref
          | some (.error e) =>
              .failMsg ("Invalid JSON in " ++ VERSION_PATH ++ " at " ++
                base_ref ++ ": " ++ e)
          | some (.ok base) =>
            match validate_payload base (VERSION_PATH ++ " at " ++ base_ref) with
            | .error e => .failMsg e
            | .ok () =>
              if changed then compareRules release_requested current base
              else .passOk

/-! ### Helper lemmas: character classes and list scanning -/

theorem isNZDig_isDig {c : Char} (h : isNZDig c = true) : isDig c = true := by
  simp only [isNZDig, isDig, decide_eq_true_eq] at *
  omega

theorem isDig_not_space {c : Char} (h : isDig c = true) : isPySpace c = false := by
  simp only [isDig, isPySpace, decide_eq_true_eq, decide_eq_false_iff_not] at *
  omega

theorem isDig_ne_sign {c : Char} (h : isDig c = true) :
    (c == '+') = false ∧ (c == '-') = false := by
  constructor <;> (rw [beq_eq_false_iff_ne]; rintro rfl; revert h; decide)

theorem takeWhile_all (p : Char → Bool) (l : List Char) :
    (l.takeWhile p).all p = true := by
  induction l with
  | nil => rfl
  | cons c cs ih =>
    by_cases h : p c = true
    · simp [List.takeWhile_cons, h, ih]
    · simp [List.takeWhile_cons, h]

theorem takeWhile_append_dig {l r : List Char} (h : l.all isDig = true)
    (hr : noDigitStart r = true) :
    (l ++ r).takeWhile isDig = l ∧ (l ++ r).dropWhile isDig = r := by
  induction l with
  | nil =>
    cases r with
    | nil => exact ⟨rfl, rfl⟩
    | cons c cs =>
      simp only [noDigitStart, Bool.not_eq_true'] at hr
      simp [List.takeWhile_cons, List.dropWhile_cons, hr]
  | cons c cs ih =>
    simp only [List.all_cons, Bool.and_eq_true] at h
    obtain ⟨iht, ihd⟩ := ih h.2
    constructor
    · simp [List.takeWhile_cons, h.1, iht]
    · simp [List.dropWhile_cons, h.1, ihd]

theorem dropWhile_nonspace {l : List Char} (h : l.all (fun c => !isPySpace c) = true) :
    l.dropWhile isPySpace = l := by
  cases l with
  | nil => rfl
  | cons c cs =>
    simp only [List.all_cons, Bool.and_eq_true, Bool.not_eq_true'] at h
    simp [List.dropWhile_cons, h.1]

/-! ### Helper lemmas: the pattern parser -/

theorem isGroup_all_dig {g : List Char} (h : isGroup g = true) : g.all isDig = true := by
  cases g with
  | nil => simp [isGroup] at h
  | cons c rest =>
    simp only [isGroup, Bool.or_eq_true, Bool.and_eq_true] at h
    rcases h with ⟨hc, hrest⟩ | ⟨hn, hall⟩
    · have h1 : rest = [] := by simpa using hrest
      have h2 : c = '0' := by simpa using hc
      subst h1; subst h2; decide
    · simp [List.all_cons, isNZDig_isDig hn, hall]

theorem isGroup_ne_nil {g : List Char} (h : isGroup g = true) : g ≠ [] := by
  rintro rfl; simp [isGroup] at h

theorem dot_not_mem {g : List Char} (h : g.all isDig = true) : '.' ∉ g := by
  intro hm
  rw [List.all_eq_true] at h
  exact absurd (h _ hm) (by decide)

theorem newline_not_mem {g : List Char} (h : g.all isDig = true) : '\n' ∉ g := by
  intro hm
  rw [List.all_eq_true] at h
  exact absurd (h _ hm) (by decide)

theorem parseGroup_sound {s g r : List Char} (h : parseGroup s = some (g, r)) :
    isGroup g = true ∧ s = g ++ r := by
  cases s with
  | nil => simp [parseGroup] at h
  | cons c rest =>
    simp only [parseGroup] at h
    by_cases hc : (c == '0') = true
    · rw [if_pos hc] at h
      obtain ⟨rfl, rfl⟩ : [c] = g ∧ rest = r := by
        simpa [Prod.ext_iff] using h
      exact ⟨by simp [isGroup, hc], rfl⟩
    · rw [if_neg hc] at h
      by_cases hn : isNZDig c = true
      · rw [if_pos hn] at h
        obtain ⟨rfl, rfl⟩ : c :: rest.takeWhile isDig = g ∧ rest.dropWhile isDig = r := by
          simpa [Prod.ext_iff] using h
        refine ⟨?_, ?_⟩
        · simp [isGroup, hn, takeWhile_all]
        · simp [List.takeWhile_append_dropWhile]
      · rw [if_neg hn] at h
        exact absurd h (by simp)

theorem parseGroup_complete {g r : List Char} (hg : isGroup g = true)
    (hr : noDigitStart r = true) : parseGroup (g ++ r) = some (g, r) := by
  cases g with
  | nil => simp [isGroup] at hg
  | cons c rest =>
    simp only [isGroup, Bool.or_eq_true, Bool.and_eq_true] at hg
    rcases hg with ⟨hc, hrest⟩ | ⟨hn, hall⟩
    · have h1 : rest = [] := by simpa using hrest
      have h2 : c = '0' := by simpa using hc
      subst h1; subst h2
      simp [parseGroup]
    · have hc0 : (c == '0') = false := by
        rw [beq_eq_false_iff_ne]
        rintro rfl
        exact absurd hn (by decide)
      obtain ⟨ht, hd⟩ := takeWhile_append_dig hall hr
      simp [parseGroup, hc0, hn, ht, hd]

theorem expectDot_sound {s t : List Char} (h : expectDot s = some t) :
    s = '.' :: t := by
  cases s with
  | nil => simp [expectDot] at h
  | cons c rest =>
    simp only [expectDot] at h
    by_cases hc : (c == '.') = true
    · rw [if_pos hc] at h
      have h1 : c = '.' := by simpa using hc
      have h2 : rest = t := by simpa using h
      rw [h1, h2]
    · rw [if_neg hc] at h
      exact absurd h (by simp)

theorem parseSemverRest_sound {s a b c r : List Char}
    (h : parseSemverRest s = some ((a, b, c), r)) :
    isGroup a = true ∧ isGroup b = true ∧ isGroup c = true ∧
      s = a ++ '.' :: (b ++ '.' :: (c ++ r)) := by
  simp only [parseSemverRest, Option.bind_eq_some, Option.some.injEq] at h
  obtain ⟨⟨a', s1⟩, h1, s2, h2, ⟨b', s3⟩, h3, s4, h4, ⟨c', s5⟩, h5, heq⟩ := h
  obtain ⟨⟨rfl, rfl, rfl⟩, rfl⟩ : (a' = a ∧ b' = b ∧ c' = c) ∧ s5 = r := by
    simpa [Prod.ext_iff] using heq
  obtain ⟨ha, rfl⟩ := parseGroup_sound h1
  obtain ⟨hb, rfl⟩ := parseGroup_sound h3
  obtain ⟨hc, rfl⟩ := parseGroup_sound h5
  rw [show s1 = '.' :: (b' ++ s3) from expectDot_sound h2,
    show s3 = '.' :: (c' ++ s5) from expectDot_sound h4]
  exact ⟨ha, hb, hc, rfl⟩

theorem parseSemverRest_complete {a b c r : List Char}
    (ha : isGroup a = true) (hb : isGroup b = true) (hc : isGroup c = true)
    (hr : noDigitStart r = true) :
    parseSemverRest (a ++ '.' :: (b ++ '.' :: (c ++ r))) = some ((a, b, c), r) := by
  unfold parseSemverRest
  rw [parseGroup_complete ha (by rfl)]
  simp only [Option.some_bind]
  rw [show expectDot ((a, '.' :: (b ++ '.' :: (c ++ r))).2) =
      some (b ++ '.' :: (c ++ r)) from rfl]
  simp only [Option.some_bind]
  rw [parseGroup_complete hb (by rfl)]
  simp only [Option.some_bind]
  rw [show expectDot ((b, '.' :: (c ++ r)).2) = some (c ++ r) from rfl]
  simp only [Option.some_bind]
  rw [parseGroup_complete hc hr]
  simp only [Option.some_bind]

theorem tailOk_iff {r : List Char} : tailOk r = true ↔ r = [] ∨ r = ['\n'] := by
  cases r with
  | nil => simp [tailOk]
  | cons c cs =>
    simp only [tailOk, Bool.and_eq_true, beq_iff_eq, List.isEmpty_iff]
    constructor
    · rintro ⟨rfl, rfl⟩; right; rfl
    · rintro (h | h)
      · exact absurd h (by simp)
      · obtain ⟨rfl, rfl⟩ : c = '\n' ∧ cs = [] := by simpa using h
        exact ⟨rfl, rfl⟩

theorem noDigitStart_of_tail {r : List Char} (h : r = [] ∨ r = ['\n']) :
    noDigitStart r = true := by
  rcases h with rfl | rfl <;> decide

/-- Strings of the spec's strict `MAJOR.MINOR.PATCH` form contain no
newline (their characters are digits and dots). -/
theorem specSemver_no_newline {s : List Char} (h : specSemver s) : '\n' ∉ s := by
  obtain ⟨a, b, c, ha, hb, hc, rfl⟩ := h
  intro hm
  simp only [List.mem_append, List.mem_cons] at hm
  rcases hm with hm | hm | hm | hm | hm
  · exact newline_not_mem (isGroup_all_dig ha) hm
  · exact absurd hm (by decide)
  · exact newline_not_mem (isGroup_all_dig hb) hm
  · exact absurd hm (by decide)
  · exact newline_not_mem (isGroup_all_dig hc) hm

/-! ### Helper lemmas: `pySplit`, `stripWS`, `pyInt` -/

theorem pySplit_no_sep {sep : Char} {l : List Char} (h : sep ∉ l) :
    pySplit sep l = [l] := by
  induction l with
  | nil => rfl
  | cons c cs ih =>
    simp only [List.mem_cons, not_or] at h
    have hc : (c == sep) = false := by
      rw [beq_eq_false_iff_ne]; exact fun e => h.1 e.symm
    simp [pySplit, hc, ih h.2]

theorem pySplit_append {sep : Char} {a rest : List Char} (h : sep ∉ a) :
    pySplit sep (a ++ sep :: rest) = a :: pySplit sep rest := by
  induction a with
  | nil => simp [pySplit]
  | cons c cs ih =>
    simp only [List.mem_cons, not_or] at h
    have hc : (c == sep) = false := by
      rw [beq_eq_false_iff_ne]; exact fun e => h.1 e.symm
    simp [pySplit, hc, ih h.2]

theorem stripWS_group_tail {g r : List Char} (hg : g.all isDig = true)
    (hne : g ≠ []) (hr : r = [] ∨ r = ['\n']) : stripWS (g ++ r) = g := by
  have hns : g.all (fun c => !isPySpace c) = true := by
    rw [List.all_eq_true] at *
    intro c hc
    simpa using isDig_not_space (hg c hc)
  have hfront : (g ++ r).dropWhile isPySpace = g ++ r := by
    cases g with
    | nil => exact absurd rfl hne
    | cons c cs =>
      simp only [List.all_cons, Bool.and_eq_true, Bool.not_eq_true'] at hns
      simp [List.dropWhile_cons, hns.1]
  have hrevall : g.reverse.all (fun c => !isPySpace c) = true := by
    simpa using hns
  unfold stripWS
  rw [hfront]
  rcases hr with rfl | rfl
  · rw [List.append_nil, dropWhile_nonspace hrevall, List.reverse_reverse]
  · rw [show (g ++ ['\n']).reverse = '\n' :: g.reverse by simp]
    rw [show List.dropWhile isPySpace ('\n' :: g.reverse) =
        List.dropWhile isPySpace g.reverse by
      rw [List.dropWhile_cons, if_pos (show isPySpace '\n' = true from by decide)]]
    rw [dropWhile_nonspace hrevall, List.reverse_reverse]

theorem digitsRest_all {l : List Char} (h : l.all isDig = true) (acc : Nat) :
    digitsRest acc l = some (l.foldl (fun a c => a * 10 + digitVal c) acc) := by
  induction l generalizing acc with
  | nil => rfl
  | cons c cs ih =>
    simp only [List.all_cons, Bool.and_eq_true] at h
    rw [digitsRest.eq_def]
    simp only [h.1, if_true]
    rw [ih h.2]
    simp

theorem parseDigits_all {l : List Char} (h : l.all isDig = true) (hne : l ≠ []) :
    parseDigits l = some (digitsVal l) := by
  cases l with
  | nil => exact absurd rfl hne
  | cons c cs =>
    simp only [List.all_cons, Bool.and_eq_true] at h
    rw [parseDigits, if_pos h.1, digitsRest_all h.2]
    simp [digitsVal]

/-- `int()` applied to a matched group, possibly still carrying the
trailing newline tolerated by the `$` anchor: the conversion succeeds
and yields the group's numeric value. -/
theorem pyInt_group_tail {g r : List Char} (hg : isGroup g = true)
    (hr : r = [] ∨ r = ['\n']) : pyInt (g ++ r) = some ((digitsVal g : Int)) := by
  have hall := isGroup_all_dig hg
  have hne := isGroup_ne_nil hg
  unfold pyInt
  rw [stripWS_group_tail hall hne hr]
  cases g with
  | nil => exact absurd rfl hne
  | cons c cs =>
    have hd : isDig c = true := by
      simp only [List.all_cons, Bool.and_eq_true] at hall
      exact hall.1
    obtain ⟨hp, hm⟩ := isDig_ne_sign hd
    show (if c == '+' then (parseDigits cs).map (fun n => (n : Int))
        else if c == '-' then (parseDigits cs).map (fun n => -(n : Int))
        else (parseDigits (c :: cs)).map (fun n => (n : Int))) =
      some ((digitsVal (c :: cs) : Int))
    rw [if_neg (by simp [hp]), if_neg (by simp [hm])]
    rw [parseDigits_all hall (by simp)]
    rfl

theorem pyInt_group {g : List Char} (hg : isGroup g = true) :
    pyInt g = some ((digitsVal g : Int)) := by
  have h := pyInt_group_tail hg (Or.inl rfl)
  simpa using h

/-! ### Helper lemmas: the tuple order -/

theorem tupLt_irrefl (x : Int × Int × Int) : tupLt x x = false := by
  obtain ⟨a, b, c⟩ := x
  simp [tupLt]

theorem tupLe_refl (x : Int × Int × Int) : tupLe x x = true := by
  simp [tupLe]

theorem tupLt_asymm {x y : Int × Int × Int} (h : tupLt x y = true) :
    tupLt y x = false := by
  obtain ⟨a, b, c⟩ := x
  obtain ⟨d, e, f⟩ := y
  simp only [tupLt, decide_eq_true_eq, decide_eq_false_iff_not] at *
  omega

theorem tupLe_eq_false_of_lt {x y : Int × Int × Int} (h : tupLt x y = true) :
    tupLe y x = false := by
  obtain ⟨a, b, c⟩ := x
  obtain ⟨d, e, f⟩ := y
  simp only [tupLt, tupLe, Prod.ext_iff, Bool.or_eq_false_iff,
    decide_eq_true_eq, decide_eq_false_iff_not] at *
  constructor
  · omega
  · rintro ⟨h1, h2, h3⟩
    omega

/-! ### Claim C4: what the validator's pattern accepts -/

/-- C4, counterexample: the claim says acceptance is a full-string
anchor match, rejecting in particular a trailing newline; but the
validator's pattern accepts `"1.2.3\n"`, which is not of the strict
`MAJOR.MINOR.PATCH` form (Python's `$` also matches just before a
trailing newline). -/
theorem c4_counterexample :
    semverMatch "1.2.3\n".data = true ∧ ¬ specSemver "1.2.3\n".data := by
  constructor
  · decide
  · intro h
    exact specSemver_no_newline h (by decide)

/-- C4, amended: the validator accepts `s` as `marketing_version` iff
`s` is exactly `MAJOR.MINOR.PATCH` (components non-negative decimal
integers, no leading zero except the bare `0`, no pre-release suffix,
no extra components) optionally followed by one trailing newline. -/
theorem c4_semver_accepts (s : List Char) :
    semverMatch s = true ↔
      specSemver s ∨ ∃ t, s = t ++ ['\n'] ∧ specSemver t := by
  constructor
  · intro h
    unfold semverMatch at h
    cases hp : parseSemverRest s with
    | none => rw [hp] at h; exact absurd h (by simp)
    | some pr =>
      obtain ⟨⟨a, b, c⟩, r⟩ := pr
      rw [hp] at h
      obtain ⟨ha, hb, hc, hs⟩ := parseSemverRest_sound hp
      rcases tailOk_iff.mp h with rfl | rfl
      · left
        exact ⟨a, b, c, ha, hb, hc, by simpa using hs⟩
      · right
        refine ⟨a ++ '.' :: (b ++ '.' :: c), ?_, a, b, c, ha, hb, hc, rfl⟩
        rw [hs]
        simp
  · rintro (⟨a, b, c, ha, hb, hc, rfl⟩ | ⟨t, rfl, a, b, c, ha, hb, hc, rfl⟩)
    · have hp := parseSemverRest_complete ha hb hc (r := []) (by decide)
      unfold semverMatch
      rw [show a ++ '.' :: (b ++ '.' :: c) = a ++ '.' :: (b ++ '.' :: (c ++ [])) by simp,
        hp]
      rfl
    · have hp := parseSemverRest_complete ha hb hc (r := ['\n']) (by decide)
      unfold semverMatch
      rw [show (a ++ '.' :: (b ++ '.' :: c)) ++ ['\n'] =
          a ++ '.' :: (b ++ '.' :: (c ++ ['\n'])) by simp, hp]
      rfl

/-- C4, witness: a plain strict semver string is accepted. -/
theorem c4_witness : semverMatch "1.2.3".data = true :=
  (c4_semver_accepts "1.2.3".data).mpr
    (Or.inl ⟨"1".data, "2".data, "3".data, by decide, by decide, by decide, by decide⟩)

/-! ### Claim C10: `semver_tuple` is safe on accepted strings -/

/-- C10: for every string the validator's pattern accepts, splitting on
`.` yields exactly three parts, every `int` conversion succeeds (no
`ValueError` is reachable), and the result is exactly the triple of
the three matched groups' numeric values. -/
theorem c10_semver_tuple_safe (v : String) (hm : semverMatch v.data = true) :
    (pySplit '.' v.data).length = 3 ∧
      semver_tuple v = semverComponents v.data ∧
      (semver_tuple v).isSome = true := by
  unfold semverMatch at hm
  cases hp : parseSemverRest v.data with
  | none => rw [hp] at hm; exact absurd hm (by simp)
  | some pr =>
    obtain ⟨⟨a, b, c⟩, r⟩ := pr
    rw [hp] at hm
    have hr := tailOk_iff.mp hm
    obtain ⟨ha, hb, hc, hs⟩ := parseSemverRest_sound hp
    have na : '.' ∉ a := dot_not_mem (isGroup_all_dig ha)
    have nb : '.' ∉ b := dot_not_mem (isGroup_all_dig hb)
    have ncr : '.' ∉ c ++ r := by
      intro hm2
      rcases List.mem_append.mp hm2 with h2 | h2
      · exact dot_not_mem (isGroup_all_dig hc) h2
      · rcases hr with rfl | rfl
        · exact absurd h2 (by decide)
        · exact absurd h2 (by decide)
    have hsplit : pySplit '.' v.data = [a, b, c ++ r] := by
      rw [hs, pySplit_append na, pySplit_append nb, pySplit_no_sep ncr]
    have hts : semver_tuple v =
        some ((digitsVal a : Int), (digitsVal b : Int), (digitsVal c : Int)) := by
      unfold semver_tuple
      rw [hsplit]
      simp only [pyInt_group ha, pyInt_group hb, pyInt_group_tail hc hr]
    have hcm : semverComponents v.data =
        some ((digitsVal a : Int), (digitsVal b : Int), (digitsVal c : Int)) := by
      unfold semverComponents
      rw [hp]
    exact ⟨by rw [hsplit]; rfl, by rw [hts, hcm], by rw [hts]; rfl⟩

/-- C10, witness at a concrete accepted string. -/
theorem c10_witness :
    (pySplit '.' "1.2.3".data).length = 3 ∧
      semver_tuple "1.2.3" = semverComponents "1.2.3".data ∧
      (semver_tuple "1.2.3").isSome = true :=
  c10_semver_tuple_safe "1.2.3" (by decide)

/-! ### Helper lemma: what a succeeding validation guarantees -/

theorem validate_payload_fields {d : List (String × JValue)} {src : String}
    (h : validate_payload d src = .ok ()) :
    ∃ s bv n, lookup "marketing_version" d = some (.jstr s) ∧
      semverMatch s.data = true ∧
      lookup "build_number" d = some bv ∧ pyIntVal bv = some n ∧ 0 ≤ n := by
  unfold validate_payload at h
  cases hmv : lookup "marketing_version" d with
  | none => rw [hmv] at h; exact absurd h (by simp)
  | some mv =>
    rw [hmv] at h
    cases hbn : lookup "build_number" d with
    | none => rw [hbn] at h; simp only [] at h; exact absurd h (by simp)
    | some bn =>
      rw [hbn] at h
      simp only [] at h
      cases mv with
      | jstr s =>
        simp only [] at h
        by_cases hsem : semverMatch s.data = true
        · rw [if_pos hsem] at h
          cases hpi : pyIntVal bn with
          | none => rw [hpi] at h; exact absurd h (by simp)
          | some n =>
            rw [hpi] at h
            simp only [] at h
            by_cases hneg : n < 0
            · rw [if_pos hneg] at h; exact absurd h (by simp)
            · exact ⟨s, bn, n, rfl, hsem, rfl, hpi, by omega⟩
        · rw [if_neg hsem] at h
          exact absurd h (by simp)
      | jnull => exact absurd h (by simp)
      | jbool b => exact absurd h (by simp)
      | jint n => exact absurd h (by simp)
      | jfloat => exact absurd h (by simp)
      | jarr xs => exact absurd h (by simp)
      | jobj fs => exact absurd h (by simp)

/-! ### Claim C5: which `build_number` values the validator accepts -/

/-- C5, counterexample: the claim says every non-integer JSON value,
booleans included, is rejected; but `isinstance(True, int)` holds in
Python (`bool` subclasses `int`), so a payload whose `build_number` is
the JSON boolean `true` passes validation. -/
theorem c5_counterexample :
    validate_payload
      [("marketing_version", .jstr "1.0.0"), ("build_number", .jbool true)]
      VERSION_PATH = .ok () := by
  rfl

/-- C5, amended: with a well-formed `marketing_version`, a
`build_number` value is accepted iff it is an integer `≥ 0` or a
boolean (booleans pass the `isinstance` check and count as `0`/`1`,
which are never negative); every other value, and every negative
integer, is rejected. -/
theorem c5_build_number (v : JValue) :
    validate_payload
      [("marketing_version", .jstr "1.0.0"), ("build_number", v)]
      VERSION_PATH = .ok () ↔
    (∃ n : Int, v = .jint n ∧ 0 ≤ n) ∨ (∃ b : Bool, v = .jbool b) := by
  cases v with
  | jint n =>
    constructor
    · intro h
      obtain ⟨s, bv, m, _, _, hbn, hpi, hm⟩ := validate_payload_fields h
      have hbv : bv = .jint n := by
        simpa [lookup] using hbn.symm
      subst hbv
      obtain rfl : n = m := by simpa [pyIntVal] using hpi
      exact Or.inl ⟨n, rfl, hm⟩
    · rintro (⟨m, hm, hge⟩ | ⟨b, hb⟩)
      · obtain rfl : n = m := by simpa using hm
        show (if n < 0 then
            Except.error (VERSION_PATH ++ " build_number must be >= 0")
          else Except.ok ()) = Except.ok ()
        rw [if_neg (by omega)]
      · exact absurd hb (by simp)
  | jbool b =>
    constructor
    · intro _
      exact Or.inr ⟨b, rfl⟩
    · intro _
      cases b <;> rfl
  | jnull =>
    refine ⟨fun h => ?_, by rintro (⟨m, hm, _⟩ | ⟨b, hb⟩) <;> simp at *⟩
    exact absurd (show (Except.error (VERSION_PATH ++ " build_number must be an integer") :
      Except String Unit) = Except.ok () from h) (by simp)
  | jfloat =>
    refine ⟨fun h => ?_, by rintro (⟨m, hm, _⟩ | ⟨b, hb⟩) <;> simp at *⟩
    exact absurd (show (Except.error (VERSION_PATH ++ " build_number must be an integer") :
      Except String Unit) = Except.ok () from h) (by simp)
  | jstr s =>
    refine ⟨fun h => ?_, by rintro (⟨m, hm, _⟩ | ⟨b, hb⟩) <;> simp at *⟩
    exact absurd (show (Except.error (VERSION_PATH ++ " build_number must be an integer") :
      Except String Unit) = Except.ok () from h) (by simp)
  | jarr xs =>
    refine ⟨fun h => ?_, by rintro (⟨m, hm, _⟩ | ⟨b, hb⟩) <;> simp at *⟩
    exact absurd (show (Except.error (VERSION_PATH ++ " build_number must be an integer") :
      Except String Unit) = Except.ok () from h) (by simp)
  | jobj fs =>
    refine ⟨fun h => ?_, by rintro (⟨m, hm, _⟩ | ⟨b, hb⟩) <;> simp at *⟩
    exact absurd (show (Except.error (VERSION_PATH ++ " build_number must be an integer") :
      Except String Unit) = Except.ok () from h) (by simp)

/-- C5, witness: a plain non-negative integer build number is accepted. -/
theorem c5_witness :
    validate_payload
      [("marketing_version", .jstr "1.0.0"), ("build_number", .jint 3)]
      VERSION_PATH = .ok () :=
  (c5_build_number (.jint 3)).mpr (Or.inl ⟨3, rfl, by omega⟩)

/-! ### Helper lemma: the run reduced to its comparison phase -/

theorem main_compare (env : Env) (current base : List (String × JValue)) (r : String)
    (hcur : env.currentRead = .ok current)
    (hvc : validate_payload current VERSION_PATH = .ok ())
    (hbr : resolve_base_ref env.githubBaseRef env.verify = some r)
    (hch : file_changed env.diffResult = true)
    (hb : env.base = some (.ok base))
    (hvb : validate_payload base (VERSION_PATH ++ " at " ++ r) = .ok ()) :
    main env = compareRules (env.labels.contains "release") current base := by
  unfold main
  rw [hcur]
  simp only []
  rw [hvc]
  simp only []
  rw [hbr]
  simp only []
  rw [hch, Bool.not_true, Bool.and_false]
  rw [if_neg Bool.false_ne_true]
  rw [hb]
  simp only []
  rw [hvb]
  simp only []
  rw [if_pos trivial]

/-! ### Claim C1: build-number monotonicity -/

/-- C1: with a resolved baseline, a valid baseline record and a changed
version file, the run fails with the build-number diagnostic (carrying
both rendered values) whenever the current build number is `≤` the
baseline's, and the build rule never fires when it is strictly
greater. -/
theorem c1_build_monotonic (env : Env)
    (current base : List (String × JValue)) (r : String)
    (cbv bbv : JValue) (cb bb : Int)
    (hcur : env.currentRead = .ok current)
    (hvc : validate_payload current VERSION_PATH = .ok ())
    (hbr : resolve_base_ref env.githubBaseRef env.verify = some r)
    (hch : file_changed env.diffResult = true)
    (hb : env.base = some (.ok base))
    (hvb : validate_payload base (VERSION_PATH ++ " at " ++ r) = .ok ())
    (hcb : lookup "build_number" current = some cbv)
    (hbb : lookup "build_number" base = some bbv)
    (hcbi : pyIntVal cbv = some cb)
    (hbbi : pyIntVal bbv = some bb) :
    (cb ≤ bb → main env = .failBuild (pyStr cbv) (pyStr bbv) ∧
      render (Outcome.failBuild (pyStr cbv) (pyStr bbv)) =
        "ERROR: build_number must increase (current " ++ pyStr cbv ++
          ", base " ++ pyStr bbv ++ ")") ∧
    (bb < cb → ∀ x y, main env ≠ .failBuild x y) := by
  have hmc := main_compare env current base r hcur hvc hbr hch hb hvb
  constructor
  · intro hle
    refine ⟨?_, rfl⟩
    rw [hmc]
    unfold compareRules
    rw [hcb, hbb]
    simp only []
    rw [hcbi, hbbi]
    simp only []
    rw [if_pos hle]
  · intro hlt x y
    rw [hmc]
    unfold compareRules
    rw [hcb, hbb]
    simp only []
    rw [hcbi, hbbi]
    simp only []
    rw [if_neg (by omega)]
    repeat' split
    all_goals simp

/-- Record used by concrete run environments below. -/
def rec120b5 : List (String × JValue) :=
  [("marketing_version", .jstr "1.2.0"), ("build_number", .jint 5)]

/-- Record used by concrete run environments below. -/
def rec120b6 : List (String × JValue) :=
  [("marketing_version", .jstr "1.2.0"), ("build_number", .jint 6)]

/-- Run environment for the C1 witness: file changed, build number not
increased. -/
def envC1 : Env :=
  ⟨.ok rec120b5, some "main", fun _ => false, some "Docs/version.json\n", [],
    some (.ok rec120b5)⟩

/-- C1, witness: a concrete run in which the build number stalled and
the run fails with the build diagnostic. -/
theorem c1_witness :
    main envC1 = .failBuild (pyStr (.jint 5)) (pyStr (.jint 5)) :=
  ((c1_build_monotonic envC1 rec120b5 rec120b5 "origin/main"
    (.jint 5) (.jint 5) 5 5 rfl rfl rfl rfl rfl rfl rfl rfl rfl rfl).1
    (by omega)).1

/-! ### Claim C2: release requires a version bump -/

/-- C2: with a resolved baseline, a valid baseline record, a changed
file and release intent, the run fails whenever the current semver
tuple equals the baseline's, and the release rule never fires when the
current tuple is lexicographically strictly greater. -/
theorem c2_release_requires_bump (env : Env)
    (current base : List (String × JValue)) (r : String)
    (cbv bbv : JValue) (cb bb : Int) (cs bs : String) (cv bv : Int × Int × Int)
    (hcur : env.currentRead = .ok current)
    (hvc : validate_payload current VERSION_PATH = .ok ())
    (hbr : resolve_base_ref env.githubBaseRef env.verify = some r)
    (hch : file_changed env.diffResult = true)
    (hrel : env.labels.contains "release" = true)
    (hb : env.base = some (.ok base))
    (hvb : validate_payload base (VERSION_PATH ++ " at " ++ r) = .ok ())
    (hcb : lookup "build_number" current = some cbv)
    (hbb : lookup "build_number" base = some bbv)
    (hcbi : pyIntVal cbv = some cb)
    (hbbi : pyIntVal bbv = some bb)
    (hcm : lookup "marketing_version" current = some (.jstr cs))
    (hbm : lookup "marketing_version" base = some (.jstr bs))
    (hct : semver_tuple cs = some cv)
    (hbt : semver_tuple bs = some bv) :
    (cv = bv → isFail (main env) = true) ∧
    (tupLt bv cv = true → ∀ x y, main env ≠ .failRelease x y) := by
  have hmc := main_compare env current base r hcur hvc hbr hch hb hvb
  constructor
  · rintro rfl
    rw [hmc]
    unfold compareRules
    rw [hcb, hbb]
    simp only []
    rw [hcbi, hbbi]
    simp only []
    by_cases hle : cb ≤ bb
    · rw [if_pos hle]; rfl
    · rw [if_neg hle, hcm, hbm]
      simp only []
      rw [hct, hbt]
      simp only []
      rw [if_neg (by simp [tupLt_irrefl])]
      rw [if_pos (show (env.labels.contains "release" && tupLe cv cv) = true by
        rw [hrel, tupLe_refl]; rfl)]
      rfl
  · intro hgt x y
    rw [hmc]
    unfold compareRules
    rw [hcb, hbb]
    simp only []
    rw [hcbi, hbbi]
    simp only []
    by_cases hle : cb ≤ bb
    · rw [if_pos hle]; simp
    · rw [if_neg hle, hcm, hbm]
      simp only []
      rw [hct, hbt]
      simp only []
      rw [if_neg (by simp [tupLt_asymm hgt])]
      rw [if_neg (by simp [tupLe_eq_false_of_lt hgt])]
      simp

/-- Run environment for the C2 witness: file changed, release label
applied, marketing version unchanged. -/
def envC2 : Env :=
  ⟨.ok rec120b6, some "main", fun _ => false, some "Docs/version.json\n",
    ["release"], some (.ok rec120b5)⟩

/-- C2, witness: a concrete release-labelled run whose version did not
move fails. -/
theorem c2_witness : isFail (main envC2) = true :=
  (c2_release_requires_bump envC2 rec120b6 rec120b5 "origin/main"
    (.jint 6) (.jint 5) 6 5 "1.2.0" "1.2.0" (1, 2, 0) (1, 2, 0)
    rfl rfl rfl rfl rfl rfl rfl rfl rfl rfl rfl rfl rfl rfl rfl).1 rfl

/-! ### Claim C3: no semver regression -/

/-- Run environment refuting C3 as stated: the baseline resolves, both
records are valid, the current marketing version 1.0.0 is strictly
below the baseline's 2.0.0 — but the version file did not change, so
rules 8–10 are skipped and the run passes. -/
def envC3 : Env :=
  ⟨.ok [("marketing_version", .jstr "1.0.0"), ("build_number", .jint 7)],
    some "main", fun _ => false, none, [],
    some (.ok [("marketing_version", .jstr "2.0.0"), ("build_number", .jint 5)])⟩

/-- C3, counterexample: the claim asserts a regression fails the run
with no `fileChanged` hypothesis; in this run the current semver tuple
is strictly below the baseline's, yet the run passes because the file
did not change. -/
theorem c3_counterexample :
    resolve_base_ref envC3.githubBaseRef envC3.verify = some "origin/main" ∧
    validate_payload [("marketing_version", .jstr "2.0.0"), ("build_number", .jint 5)]
      (VERSION_PATH ++ " at " ++ "origin/main") = .ok () ∧
    semver_tuple "1.0.0" = some (1, 0, 0) ∧
    semver_tuple "2.0.0" = some (2, 0, 0) ∧
    tupLt (1, 0, 0) (2, 0, 0) = true ∧
    file_changed envC3.diffResult = false ∧
    main envC3 = .passOk :=
  ⟨rfl, rfl, rfl, rfl, rfl, rfl, rfl⟩

/-- C3, amended: with a resolved baseline, a valid baseline record and
a **changed** version file, a current semver tuple lexicographically
below the baseline's fails the run — regardless of release intent
(the labels are unconstrained here). -/
theorem c3_no_regression (env : Env)
    (current base : List (String × JValue)) (r : String)
    (cs bs : String) (cv bv : Int × Int × Int)
    (hcur : env.currentRead = .ok current)
    (hvc : validate_payload current VERSION_PATH = .ok ())
    (hbr : resolve_base_ref env.githubBaseRef env.verify = some r)
    (hch : file_changed env.diffResult = true)
    (hb : env.base = some (.ok base))
    (hvb : validate_payload base (VERSION_PATH ++ " at " ++ r) = .ok ())
    (hcm : lookup "marketing_version" current = some (.jstr cs))
    (hbm : lookup "marketing_version" base = some (.jstr bs))
    (hct : semver_tuple cs = some cv)
    (hbt : semver_tuple bs = some bv)
    (hlt : tupLt cv bv = true) :
    isFail (main env) = true := by
  have hmc := main_compare env current base r hcur hvc hbr hch hb hvb
  obtain ⟨s1, cbv, cb, _, _, hcb, hcbi, _⟩ := validate_payload_fields hvc
  obtain ⟨s2, bbv, bb, _, _, hbb, hbbi, _⟩ := validate_payload_fields hvb
  rw [hmc]
  unfold compareRules
  rw [hcb, hbb]
  simp only []
  rw [hcbi, hbbi]
  simp only []
  by_cases hle : cb ≤ bb
  · rw [if_pos hle]; rfl
  · rw [if_neg hle, hcm, hbm]
    simp only []
    rw [hct, hbt]
    simp only []
    rw [if_pos hlt]
    rfl

/-- Run environment for the C3 witness: same records as `envC3` but
with the version file actually changed. -/
def envC3w : Env :=
  ⟨.ok [("marketing_version", .jstr "1.0.0"), ("build_number", .jint 7)],
    some "main", fun _ => false, some "Docs/version.json\n", [],
    some (.ok [("marketing_version", .jstr "2.0.0"), ("build_number", .jint 5)])⟩

/-- C3, witness: the same regression with the file changed does fail. -/
theorem c3_witness : isFail (main envC3w) = true :=
  c3_no_regression envC3w
    [("marketing_version", .jstr "1.0.0"), ("build_number", .jint 7)]
    [("marketing_version", .jstr "2.0.0"), ("build_number", .jint 5)]
    "origin/main" "1.0.0" "2.0.0" (1, 0, 0) (2, 0, 0)
    rfl rfl rfl rfl rfl rfl rfl rfl rfl rfl rfl

/-! ### Claim C6: release without a touched file fails first -/

/-- C6: with a valid current record and a resolved baseline, release
intent together with an unchanged file fails the run with the
release-without-bump diagnostic — `env.base` is entirely
unconstrained, so the verdict is reached before the baseline record is
read, whether it is absent, malformed, or in further violation. -/
theorem c6_release_without_bump (env : Env)
    (current : List (String × JValue)) (r : String)
    (hcur : env.currentRead = .ok current)
    (hvc : validate_payload current VERSION_PATH = .ok ())
    (hbr : resolve_base_ref env.githubBaseRef env.verify = some r)
    (hrel : env.labels.contains "release" = true)
    (hch : file_changed env.diffResult = false) :
    main env = .failReleaseNoChange := by
  unfold main
  rw [hcur]
  simp only []
  rw [hvc]
  simp only []
  rw [hbr]
  simp only []
  rw [hch, hrel]
  rw [if_pos (show ((true : Bool) && !false) = true from rfl)]

/-- Run environment for the C6 witness: release label, unchanged file,
and a baseline record that is not even valid JSON. -/
def envC6 : Env :=
  ⟨.ok rec120b5, some "main", fun _ => false, none, ["release"],
    some (.error "Expecting value: line 1 column 1 (char 0)")⟩

/-- C6, witness: the release-without-bump diagnostic is produced even
though the baseline record is malformed. -/
theorem c6_witness : main envC6 = .failReleaseNoChange :=
  c6_release_without_bump envC6 rec120b5 "origin/main" rfl rfl rfl rfl rfl

/-! ### Claim C7: soft absences never fail the run -/

/-- C7: (i) with a valid current record and no resolvable baseline the
run passes immediately, reporting current-only validation; (ii) with a
resolved baseline, the release-without-bump condition not violated,
and no version file at the baseline, the run passes reporting the
initial version — in both cases independently of every other input, so
rules 8–10 are never reached. -/
theorem c7_soft_absence :
    (∀ (env : Env) (current : List (String × JValue)),
      env.currentRead = .ok current →
      validate_payload current VERSION_PATH = .ok () →
      resolve_base_ref env.githubBaseRef env.verify = none →
      main env = .passNoBase) ∧
    (∀ (env : Env) (current : List (String × JValue)) (r : String),
      env.currentRead = .ok current →
      validate_payload current VERSION_PATH = .ok () →
      resolve_base_ref env.githubBaseRef env.verify = some r →
      (env.labels.contains "release" && !file_changed env.diffResult) = false →
      env.base = none →
      main env = .passInitial r) := by
  constructor
  · intro env current hcur hvc hbr
    unfold main
    rw [hcur]
    simp only []
    rw [hvc]
    simp only []
    rw [hbr]
  · intro env current r hcur hvc hbr hnc hb
    unfold main
    rw [hcur]
    simp only []
    rw [hvc]
    simp only []
    rw [hbr]
    simp only []
    rw [hnc]
    rw [if_neg Bool.false_ne_true]
    rw [hb]

/-- Run environment for C7 part (i): no baseline resolves. -/
def envC7a : Env :=
  ⟨.ok rec120b5, none, fun _ => false, none, [], none⟩

/-- Run environment for C7 part (ii): baseline resolves but the file is
absent there. -/
def envC7b : Env :=
  ⟨.ok rec120b5, some "main", fun _ => false, none, [], none⟩

/-- C7, witness: both soft-absence runs pass with the documented
messages. -/
theorem c7_witness :
    main envC7a = .passNoBase ∧ main envC7b = .passInitial "origin/main" :=
  ⟨c7_soft_absence.1 envC7a rec120b5 rfl rfl rfl,
    c7_soft_absence.2 envC7b rec120b5 "origin/main" rfl rfl rfl rfl rfl⟩

/-! ### Claim C8: the change detector is total and swallows failures -/

/-- C8: `file_changed` returns `false` whenever the diff query fails
(`CalledProcessError`), and on a successful query returns `true`
exactly when the stripped output is non-empty. -/
theorem c8_change_detector :
    file_changed none = false ∧
    ∀ out : String, (file_changed (some out) = true ↔ stripWS out.data ≠ []) := by
  refine ⟨rfl, fun out => ?_⟩
  cases h : stripWS out.data with
  | nil => simp [file_changed, h]
  | cons c cs => simp [file_changed, h]

/-- C8, witness: a one-path diff output counts as a change. -/
theorem c8_witness :
    file_changed (some "Docs/version.json\n") = true ↔
      stripWS "Docs/version.json\n".data ≠ [] :=
  c8_change_detector.2 "Docs/version.json\n"

/-! ### Claim C9: the baseline hint is trusted unverified -/

/-- C9, counterexample: `GITHUB_BASE_REF` set to the empty string is
falsy in Python, so the resolver ignores it and probes the fallback
candidates; with none verifiable the result is `none` — against the
claim that a set hint always yields a (non-`none`) remote-qualified
baseline. -/
theorem c9_counterexample :
    resolve_base_ref (some "") (fun _ => false) = none := rfl

/-- C9, amended: a hint set to a non-empty string is returned
remote-qualified without consulting the verifier at all (so even an
unresolvable hint yields a baseline); only an unset (or empty) hint
falls back to probing the fixed candidates in order. -/
theorem c9_hint_unverified (b : String) (hb : b ≠ "") (verify : String → Bool) :
    resolve_base_ref (some b) verify = some ("origin/" ++ b) ∧
    resolve_base_ref none verify = firstVerified verify candidates := by
  refine ⟨?_, rfl⟩
  unfold resolve_base_ref
  simp only []
  rw [if_neg (by simp [hb])]

/-- C9, witness: an unverifiable non-empty hint still resolves. -/
theorem c9_witness :
    resolve_base_ref (some "develop") (fun _ => false) = some ("origin/" ++ "develop") ∧
    resolve_base_ref none (fun _ => false) =
      firstVerified (fun _ => false) candidates :=
  c9_hint_unverified "develop" (by decide) (fun _ => false)

end ValidateVersioning
